import Mathlib

/-!
Shallow embedding of the repository's admin-auth helper
(`src/lib/supabase/auth.ts`) and the image-upload route handler
(`src/app/api/admin/upload-image/route.ts`), with theorems settling the
spec claims about them.

JavaScript strings are modelled as Lean `String`; the JS string methods
used by the code (`trim`, `toLowerCase`, `split(',')`, `Array.includes`,
`filter`, truthiness of strings) are modelled below, executably, over the
character list of the string. `toLowerCase` is modelled on the ASCII
range (`Char.toLower`), which covers email addresses.

`process.env.ADMIN_EMAILS` is modelled as `Option String`: `none` for an
unset variable, `some s` for a variable set to the string `s`. JS
truthiness of that value (`!adminEmailsEnv`) is falsy both for the unset
case and for the empty string.
-/

/-- Whitespace recognised by the model of JS `String.prototype.trim`. -/
def jsIsWhitespace (c : Char) : Bool :=
  c = ' ' || c = '\t' || c = '\n' || c = '\r'

/-- Drop leading whitespace characters from a character list. -/
def dropLeadingWs : List Char → List Char
  | [] => []
  | c :: cs => if jsIsWhitespace c then dropLeadingWs cs else c :: cs

/-- Model of JS `trim` on character lists: drop trailing then leading whitespace. -/
def jsTrimList (cs : List Char) : List Char :=
  dropLeadingWs (dropLeadingWs cs.reverse).reverse

/-- Model of JS `String.prototype.trim`. -/
def jsTrim (s : String) : String := ⟨jsTrimList s.data⟩

/-- Model of JS `String.prototype.toLowerCase` (ASCII range). -/
def jsToLower (s : String) : String := ⟨s.data.map Char.toLower⟩

/-- Helper for `jsSplit`: split a character list at a separator, keeping
empty segments (as JS `split` does). -/
def splitAux (sep : Char) : List Char → List Char → List String
  | [], acc => [⟨acc.reverse⟩]
  | c :: cs, acc =>
    if c = sep then ⟨acc.reverse⟩ :: splitAux sep cs []
    else splitAux sep cs (c :: acc)

/-- Model of JS `String.prototype.split` with a one-character separator. -/
def jsSplit (s : String) (sep : Char) : List String := splitAux sep s.data []

/-- Truthiness of `process.env.ADMIN_EMAILS` in `if (!adminEmailsEnv)`:
falsy when the variable is unset or set to the empty string. -/
def envIsFalsy (v : Option String) : Bool :=
  match v with
  | none => true
  | some s => s == ""

/-- The hardcoded fallback admin email from `getAdminEmails`. -/
def fallbackAdminEmail : String := "elmahboubimehdi@gmail.com"

/-- The parsing pipeline of `getAdminEmails` on a set `ADMIN_EMAILS` value:
split on commas, trim each entry, keep only entries of positive length. -/
def parseAdminEmails (s : String) : List String :=
  ((jsSplit s ',').map jsTrim).filter (fun email => email.length > 0)

/-- Embedding of `getAdminEmails` from `src/lib/supabase/auth.ts`:
returns the hardcoded fallback when `ADMIN_EMAILS` is falsy, otherwise
the comma-split, trimmed, non-empty-filtered entries. -/
def getAdminEmails (adminEmailsEnv : Option String) : List String :=
  if envIsFalsy adminEmailsEnv then [fallbackAdminEmail]
  else parseAdminEmails (adminEmailsEnv.getD "")

/-- Normalization `isAdmin` applies to its input: `email.toLowerCase().trim()`. -/
def jsNormalizeEmail (email : String) : String := jsTrim (jsToLower email)

/-- The body of `isAdmin` inside its `try`: obtain the admin emails (a step
that may raise, modelled by `Except`) and test membership of the
normalized input. -/
def isAdminBody (getEmails : Except String (List String)) (email : String) :
    Except String Bool :=
  match getEmails with
  | .error e => .error e
  | .ok adminEmails => .ok (adminEmails.contains (jsNormalizeEmail email))

/-- The `try`/`catch` of `isAdmin`: an exception from the body is caught and
turned into `false`. -/
def isAdminCatch (getEmails : Except String (List String)) (email : String) :
    Bool :=
  match isAdminBody getEmails email with
  | .ok b => b
  | .error _ => false

/-- Embedding of `isAdmin` from `src/lib/supabase/auth.ts`, with
`getAdminEmails` evaluated on the given environment (which never raises). -/
def isAdmin (adminEmailsEnv : Option String) (email : String) : Bool :=
  isAdminCatch (.ok (getAdminEmails adminEmailsEnv)) email

/-- The provider error object of a failed `signInWithPassword` call. -/
structure AuthError where
  message : String
deriving DecidableEq

/-- The user object of a successful sign-in; its `email` field may be absent. -/
structure AuthUser where
  email : Option String
deriving DecidableEq

/-- The `{ data, error }` shape returned by `signInWithPassword`:
`error` is the provider error (if any) and `user` is `data.user`. -/
structure SignInResponse where
  error : Option AuthError
  user : Option AuthUser
deriving DecidableEq

/-- Outcome of the awaited `signInWithPassword` call: either it throws an
exception (caught by the surrounding `try`/`catch`) or it returns a
`{ data, error }` response. -/
inductive SignInOutcome where
  | throws (e : String)
  | returns (r : SignInResponse)
deriving DecidableEq

/-- The `{ success, error? }` result of `authenticateAdmin`. -/
structure AuthResult where
  success : Bool
  error : Option String
deriving DecidableEq

/-- The fixed access-denied message of `authenticateAdmin`. -/
def accessDeniedMessage : String := "Access denied. Admin access required."

/-- The generic failure message of `authenticateAdmin`. -/
def authFailedMessage : String := "Authentication failed"

/-- Embedding of `authenticateAdmin` from `src/lib/supabase/auth.ts`.
The credentials themselves only influence the provider call, so the
function is parametrized by that call's outcome. -/
def authenticateAdmin (adminEmailsEnv : Option String)
    (signIn : SignInOutcome) : AuthResult :=
  match signIn with
  | .throws _ => { success := false, error := some authFailedMessage }
  | .returns r =>
    match r.error with
    | some e => { success := false, error := some e.message }
    | none =>
      match r.user with
      | none => { success := false, error := some authFailedMessage }
      | some u =>
        if isAdmin adminEmailsEnv (u.email.getD "") then
          { success := true, error := none }
        else
          { success := false, error := some accessDeniedMessage }

/-- Options passed to the storage `upload` call in the route handler. -/
structure UploadOptions where
  contentType : String
  upsert : Bool
deriving DecidableEq

/-- The multipart file payload: its bytes and its MIME `type`. -/
structure FileData where
  content : List Nat
  type : String
deriving DecidableEq

/-- Conversion of the `File` to the byte buffer handed to storage
(`file.arrayBuffer()` then `Buffer.from`). -/
def fileToBuffer (f : FileData) : List Nat := f.content

/-- The `{ data, error }` outcome of the storage `upload` call: `err`
carries `error.message` (possibly absent), `ok` carries `data.path`. -/
inductive StorageOutcome where
  | err (message : Option String)
  | ok (path : String)
deriving DecidableEq

/-- A record of one storage `upload` invocation made by the handler. -/
structure UploadCall where
  path : String
  buffer : List Nat
  options : UploadOptions
deriving DecidableEq

/-- The HTTP response produced by the handler: a JSON error with a status
code, or the success JSON body `{ url, path }` (status 200). -/
inductive UploadResponse where
  | error (status : Nat) (message : String)
  | success (url : String) (path : String)
deriving DecidableEq

/-- The request as the handler sees it: either parsing or handling throws
an exception (with an `error.message` that may be absent or empty), or
the form data yields an optional file and an optional path string. -/
inductive UploadRequest where
  | throws (message : Option String)
  | form (file : Option FileData) (path : Option String)
deriving DecidableEq

/-- The fallback upload error message. -/
def failedUploadMessage : String := "Failed to upload image"

/-- JS `error.message || 'Failed to upload image'`: the fallback is used
when the message is absent or the empty string. -/
def messageOrFallback (m : Option String) : String :=
  match m with
  | none => failedUploadMessage
  | some s => if s = "" then failedUploadMessage else s

/-- Embedding of the `POST` handler from
`src/app/api/admin/upload-image/route.ts`, parametrized by the storage
`upload` call and `getPublicUrl` (both on the fixed bucket). Returns the
HTTP response together with the list of storage upload calls performed. -/
def POST (upload : String → List Nat → UploadOptions → StorageOutcome)
    (getPublicUrl : String → String) (req : UploadRequest) :
    UploadResponse × List UploadCall :=
  match req with
  | .throws m => (.error 500 (messageOrFallback m), [])
  | .form file pth =>
    match file with
    | none => (.error 400 "No file provided", [])
    | some f =>
      match pth with
      | none => (.error 400 "No path provided", [])
      | some p =>
        if p = "" then (.error 400 "No path provided", [])
        else
          let opts : UploadOptions := { contentType := f.type, upsert := true }
          let buffer := fileToBuffer f
          match upload p buffer opts with
          | .err m => (.error 500 (messageOrFallback m), [⟨p, buffer, opts⟩])
          | .ok dataPath =>
            (.success (getPublicUrl p) dataPath, [⟨p, buffer, opts⟩])

lemma isAdmin_eq_contains (env : Option String) (email : String) :
    isAdmin env email = (getAdminEmails env).contains (jsNormalizeEmail email) := rfl

lemma empty_string_not_in_getAdminEmails (env : Option String) :
    "" ∉ getAdminEmails env := by
  rcases env with _ | s
  · decide
  · by_cases hs : s = ""
    · subst hs; decide
    · simp only [getAdminEmails, envIsFalsy, Option.getD_some]
      rw [if_neg (by simpa using hs)]
      intro hmem
      have hlen := (List.mem_filter.mp hmem).2
      exact absurd (of_decide_eq_true hlen) (by decide)

lemma isAdmin_empty_false (env : Option String) : isAdmin env "" = false := by
  have h := empty_string_not_in_getAdminEmails env
  show (getAdminEmails env).contains "" = false
  exact Bool.eq_false_iff.mpr fun hc => h (List.elem_iff.mp hc)

/-- C1 (amended): `isAdmin` returns true exactly when the trimmed,
lowercased input is literally a member of the parsed allow-list, whose
entries are trimmed but not lowercased. Hence the check is
case-insensitive in the input (two inputs with the same normalization
agree) and an input whose normalization equals a configured entry is
accepted; but an input matching a configured entry only up to case is
rejected whenever the entry itself contains uppercase. -/
theorem C1_isAdmin_normalized_membership :
    (∀ env email,
        isAdmin env email =
          (getAdminEmails env).contains (jsNormalizeEmail email)) ∧
    (∀ env e1 e2, jsNormalizeEmail e1 = jsNormalizeEmail e2 →
        isAdmin env e1 = isAdmin env e2) ∧
    (∀ env email entry, entry ∈ getAdminEmails env →
        jsNormalizeEmail email = entry → isAdmin env email = true) := by
  refine ⟨fun env email => rfl, fun env e1 e2 h => ?_,
    fun env email entry hm he => ?_⟩
  · rw [isAdmin_eq_contains, isAdmin_eq_contains, h]
  · rw [isAdmin_eq_contains, he]
    exact List.elem_iff.mpr hm

/-- C1 counterexample: with `ADMIN_EMAILS` set to `Admin@Example.com`, the
input `Admin@Example.com` is literally equal to a configured allow-list
entry (so in particular matches it up to case and whitespace), yet
`isAdmin` returns false: the input is lowercased but the configured entry
is not. -/
theorem C1_counterexample :
    "Admin@Example.com" ∈ getAdminEmails (some "Admin@Example.com") ∧
    isAdmin (some "Admin@Example.com") "Admin@Example.com" = false := by
  decide

/-- C1 witness: the amended theorem applied at concrete configurations. -/
theorem C1_witness :
    isAdmin (some "a@b.com, C@D.com") " A@B.COM " = true ∧
    isAdmin none "MiXeD@x.y" = isAdmin none "  mixed@X.Y " :=
  ⟨C1_isAdmin_normalized_membership.2.2 (some "a@b.com, C@D.com")
      " A@B.COM " "a@b.com" (by decide) (by decide),
   C1_isAdmin_normalized_membership.2.1 none "MiXeD@x.y" "  mixed@X.Y "
      (by decide)⟩

/-- C2: a successful sign-in whose user fails the allow-list check yields
failure with the fixed access-denied message; a provider sign-in failure
yields failure with the provider's message verbatim; and whenever the
provider's message (such as its bad-credentials message) differs from the
fixed access-denied string, that failure is distinct from the
access-denied failure. -/
theorem C2_access_denied_vs_provider_failure :
    (∀ env r u, r.error = none → r.user = some u →
        isAdmin env (u.email.getD "") = false →
        authenticateAdmin env (.returns r) =
          { success := false, error := some accessDeniedMessage }) ∧
    (∀ env r e, r.error = some e →
        authenticateAdmin env (.returns r) =
          { success := false, error := some e.message }) ∧
    (∀ env r e, r.error = some e → e.message ≠ accessDeniedMessage →
        (authenticateAdmin env (.returns r)).error ≠
          some accessDeniedMessage) := by
  refine ⟨fun env r u he hu hadm => ?_, fun env r e he => ?_,
    fun env r e he hne => ?_⟩
  · simp [authenticateAdmin, he, hu, hadm]
  · simp [authenticateAdmin, he]
  · simp [authenticateAdmin, he, hne]

/-- C2 witness: the theorem applied at a concrete configuration, a
non-allow-listed user, and a provider bad-credentials failure. -/
theorem C2_witness :
    authenticateAdmin (some "a@b.com")
        (.returns ⟨none, some ⟨some "x@y.com"⟩⟩) =
      { success := false, error := some accessDeniedMessage } ∧
    authenticateAdmin (some "a@b.com")
        (.returns ⟨some ⟨"Invalid login credentials"⟩, none⟩) =
      { success := false, error := some "Invalid login credentials" } ∧
    (authenticateAdmin (some "a@b.com")
        (.returns ⟨some ⟨"Invalid login credentials"⟩, none⟩)).error ≠
      some accessDeniedMessage :=
  ⟨C2_access_denied_vs_provider_failure.1 (some "a@b.com")
      ⟨none, some ⟨some "x@y.com"⟩⟩ ⟨some "x@y.com"⟩ rfl rfl (by decide),
   C2_access_denied_vs_provider_failure.2.1 (some "a@b.com")
      ⟨some ⟨"Invalid login credentials"⟩, none⟩
      ⟨"Invalid login credentials"⟩ rfl,
   C2_access_denied_vs_provider_failure.2.2 (some "a@b.com")
      ⟨some ⟨"Invalid login credentials"⟩, none⟩
      ⟨"Invalid login credentials"⟩ rfl (by decide)⟩

/-- C3: `isAdmin` always returns a boolean to its caller and fails closed:
if the step obtaining the admin-email list raises, the surrounding catch
returns false; and the deployed `isAdmin` is exactly this guarded check
applied to the (never-raising) `getAdminEmails`. -/
theorem C3_isAdmin_fail_closed :
    (∀ g email, isAdminCatch g email = true ∨ isAdminCatch g email = false) ∧
    (∀ g email err, isAdminBody g email = .error err →
        isAdminCatch g email = false) ∧
    (∀ env email,
        isAdmin env email = isAdminCatch (.ok (getAdminEmails env)) email) := by
  refine ⟨fun g email => ?_, fun g email err h => ?_, fun env email => rfl⟩
  · exact Bool.eq_false_or_eq_true _
  · simp [isAdminCatch, h]

/-- C3 witness: the fail-closed branch at a concrete raising getter. -/
theorem C3_witness : isAdminCatch (.error "boom") "x" = false :=
  C3_isAdmin_fail_closed.2.1 (.error "boom") "x" "boom" rfl

/-- C4: an exception thrown inside `authenticateAdmin` is caught and
yields the generic failure message, independent of the exception's
content, and is never propagated. -/
theorem C4_catch_all_generic :
    (∀ env e, authenticateAdmin env (.throws e) =
        { success := false, error := some authFailedMessage }) ∧
    (∀ env e1 e2, authenticateAdmin env (.throws e1) =
        authenticateAdmin env (.throws e2)) :=
  ⟨fun _ _ => rfl, fun _ _ _ => rfl⟩

/-- C5: with `ADMIN_EMAILS` unset, the allow-list is exactly the hardcoded
fallback email, and `isAdmin` accepts precisely the inputs that normalize
to it. -/
theorem C5_fallback_when_unset :
    getAdminEmails none = [fallbackAdminEmail] ∧
    (∀ email, isAdmin none email = true ↔
        jsNormalizeEmail email = fallbackAdminEmail) := by
  refine ⟨rfl, fun email => ?_⟩
  rw [isAdmin_eq_contains]
  show ([fallbackAdminEmail].contains (jsNormalizeEmail email) = true) ↔ _
  simp [List.contains, List.elem_iff]

/-- C5 witness: the characterization at concrete inputs. -/
theorem C5_witness :
    isAdmin none " ElMahboubiMehdi@Gmail.Com " = true :=
  (C5_fallback_when_unset.2 " ElMahboubiMehdi@Gmail.Com ").mpr (by decide)

/-- C6 counterexample: `ADMIN_EMAILS` set to the empty string is falsy, so
the code takes the hardcoded fallback instead of producing an empty
allow-list, and `isAdmin` then accepts the fallback address instead of
rejecting every email. -/
theorem C6_counterexample :
    getAdminEmails (some "") = [fallbackAdminEmail] ∧
    isAdmin (some "") "elmahboubimehdi@gmail.com" = true := by
  decide

/-- C6 (amended): the hardcoded fallback applies when `ADMIN_EMAILS` is
unset or set to the empty string; when it is set to a non-empty string
whose comma-split, trimmed entries are all empty (only commas, or only
whitespace with a comma), the parsed allow-list is empty and `isAdmin`
rejects every input email. -/
theorem C6_empty_allowlist_rejects_all :
    (∀ s, s ≠ "" → getAdminEmails (some s) = parseAdminEmails s) ∧
    (∀ s, s ≠ "" → parseAdminEmails s = [] →
        ∀ email, isAdmin (some s) email = false) := by
  have hset : ∀ s : String, s ≠ "" →
      getAdminEmails (some s) = parseAdminEmails s := by
    intro s hs
    simp only [getAdminEmails, envIsFalsy, Option.getD_some]
    rw [if_neg (by simpa using hs)]
  refine ⟨hset, fun s hs hp email => ?_⟩
  rw [isAdmin_eq_contains, hset s hs, hp]
  rfl

/-- C6 witness: the amended theorem at a concrete commas-and-whitespace
value of `ADMIN_EMAILS`. -/
theorem C6_witness :
    getAdminEmails (some ",, ") = parseAdminEmails ",, " ∧
    isAdmin (some ",, ") "elmahboubimehdi@gmail.com" = false :=
  ⟨C6_empty_allowlist_rejects_all.1 ",, " (by decide),
   C6_empty_allowlist_rejects_all.2 ",, " (by decide) (by decide)
      "elmahboubimehdi@gmail.com"⟩

/-- C7: a request missing the file payload or missing the destination path
yields an HTTP 400 JSON error and performs no storage upload. -/
theorem C7_missing_inputs_client_error :
    (∀ upload getPublicUrl pth,
        POST upload getPublicUrl (.form none pth) =
          (.error 400 "No file provided", [])) ∧
    (∀ upload getPublicUrl f,
        POST upload getPublicUrl (.form (some f) none) =
          (.error 400 "No path provided", [])) :=
  ⟨fun _ _ _ => rfl, fun _ _ _ => rfl⟩

/-- C8: with a file and a (non-empty, hence truthy) path present, the
handler performs exactly one storage upload, with `upsert` enabled and the
file's content type, and on provider success responds with exactly the
public URL for the path and the provider-returned storage path. -/
theorem C8_upsert_upload_and_success_body :
    ∀ upload getPublicUrl f p dataPath, p ≠ "" →
      upload p (fileToBuffer f) { contentType := f.type, upsert := true } =
        .ok dataPath →
      POST upload getPublicUrl (.form (some f) (some p)) =
        (.success (getPublicUrl p) dataPath,
         [{ path := p, buffer := fileToBuffer f,
            options := { contentType := f.type, upsert := true } }]) := by
  intro upload getPublicUrl f p dataPath hp hup
  simp [POST, hp, hup]

/-- C8 witness: the theorem at a concrete file, path and succeeding
storage provider. -/
theorem C8_witness :
    POST (fun _ _ _ => .ok "stored/img.png")
        (fun p => "https://cdn.example/" ++ p)
        (.form (some ⟨[1, 2, 3], "image/png"⟩) (some "products/img.png")) =
      (.success "https://cdn.example/products/img.png" "stored/img.png",
       [{ path := "products/img.png", buffer := [1, 2, 3],
          options := { contentType := "image/png", upsert := true } }]) :=
  C8_upsert_upload_and_success_body (fun _ _ _ => .ok "stored/img.png")
    (fun p => "https://cdn.example/" ++ p) ⟨[1, 2, 3], "image/png"⟩
    "products/img.png" "stored/img.png" (by decide) rfl

/-- C9: a storage-provider error or an exception thrown during handling
yields an HTTP 500 JSON error whose message is the provider's or
exception's message, with the fixed fallback when the message is absent or
empty; the handler returns a response rather than propagating. -/
theorem C9_failures_server_error :
    (∀ upload getPublicUrl m,
        POST upload getPublicUrl (.throws m) =
          (.error 500 (messageOrFallback m), [])) ∧
    (∀ upload getPublicUrl f p m, p ≠ "" →
        upload p (fileToBuffer f) { contentType := f.type, upsert := true } =
          .err m →
        POST upload getPublicUrl (.form (some f) (some p)) =
          (.error 500 (messageOrFallback m),
           [{ path := p, buffer := fileToBuffer f,
              options := { contentType := f.type, upsert := true } }])) ∧
    messageOrFallback none = failedUploadMessage ∧
    messageOrFallback (some "") = failedUploadMessage ∧
    (∀ s, s ≠ "" → messageOrFallback (some s) = s) := by
  refine ⟨fun _ _ _ => rfl, fun upload getPublicUrl f p m hp hup => ?_,
    rfl, by decide, fun s hs => ?_⟩
  · simp [POST, hp, hup]
  · simp [messageOrFallback, hs]

/-- C9 witness: the theorem at a concrete failing storage provider and at
concrete messages. -/
theorem C9_witness :
    POST (fun _ _ _ => .err (some "bucket quota exceeded"))
        (fun p => "https://cdn.example/" ++ p)
        (.form (some ⟨[7], "image/jpeg"⟩) (some "a.jpg")) =
      (.error 500 "bucket quota exceeded",
       [{ path := "a.jpg", buffer := [7],
          options := { contentType := "image/jpeg", upsert := true } }]) ∧
    messageOrFallback (some "oops") = "oops" :=
  ⟨C9_failures_server_error.2.1 (fun _ _ _ => .err (some "bucket quota exceeded"))
      (fun p => "https://cdn.example/" ++ p) ⟨[7], "image/jpeg"⟩ "a.jpg"
      (some "bucket quota exceeded") (by decide) rfl,
   C9_failures_server_error.2.2.2.2 "oops" (by decide)⟩

/-- C10: `authenticateAdmin` succeeds only when sign-in returned a user;
with neither a provider error nor a user it returns the generic failure;
the allow-list never contains the empty string; and a user without an
email (checked as the empty string) is denied with the access-denied
failure. -/
theorem C10_fail_closed_identity :
    (∀ env out, (authenticateAdmin env out).success = true →
        ∃ r u, out = .returns r ∧ r.error = none ∧ r.user = some u) ∧
    (∀ env r, r.error = none → r.user = none →
        authenticateAdmin env (.returns r) =
          { success := false, error := some authFailedMessage }) ∧
    (∀ env, "" ∉ getAdminEmails env) ∧
    (∀ env r u, r.error = none → r.user = some u → u.email = none →
        authenticateAdmin env (.returns r) =
          { success := false, error := some accessDeniedMessage }) := by
  refine ⟨fun env out h => ?_, fun env r he hu => ?_,
    empty_string_not_in_getAdminEmails, fun env r u he hu hem => ?_⟩
  · rcases out with e | ⟨err, usr⟩
    · simp [authenticateAdmin] at h
    · rcases err with _ | e
      · rcases usr with _ | u
        · simp [authenticateAdmin] at h
        · exact ⟨⟨none, some u⟩, u, rfl, rfl, rfl⟩
      · simp [authenticateAdmin] at h
  · simp [authenticateAdmin, he, hu]
  · simp [authenticateAdmin, he, hu, hem, isAdmin_empty_false]

/-- C10 witness: the theorem applied at concrete sign-in outcomes,
including a succeeding one discharging the success hypothesis. -/
theorem C10_witness :
    (∃ r u,
        (SignInOutcome.returns
            ⟨none, some ⟨some "elmahboubimehdi@gmail.com"⟩⟩) =
          .returns r ∧ r.error = none ∧ r.user = some u) ∧
    authenticateAdmin none (.returns ⟨none, none⟩) =
      { success := false, error := some authFailedMessage } ∧
    "" ∉ getAdminEmails none ∧
    authenticateAdmin none (.returns ⟨none, some ⟨none⟩⟩) =
      { success := false, error := some accessDeniedMessage } :=
  ⟨C10_fail_closed_identity.1 none
      (.returns ⟨none, some ⟨some "elmahboubimehdi@gmail.com"⟩⟩) (by decide),
   C10_fail_closed_identity.2.1 none ⟨none, none⟩ rfl rfl,
   C10_fail_closed_identity.2.2.1 none,
   C10_fail_closed_identity.2.2.2 none ⟨none, some ⟨none⟩⟩ ⟨none⟩
      rfl rfl rfl⟩
